import Mathlib

/-!
Verification development for the intent-inference workflow of
`the-brain-ai-scraper-2`.

The Python source is shallowly embedded: Pydantic models become Lean
structures, dicts become association lists, and effectful collaborators
(HTTP probes, LLM chains) become explicit oracle parameters where `none`
models a raised exception.  Each embedded function carries a doc comment
naming the source file and symbol it was translated from.
-/

set_option maxRecDepth 20000

/-! ## Decimal digits (models Python `int(...)` parsing and `str` formatting
of the revision counter) -/

/-- Value of an ASCII decimal digit character, `none` for a non-digit. -/
def digitVal (c : Char) : Option Nat :=
  if '0' ≤ c ∧ c ≤ '9' then some (c.toNat - 48) else none

/-- Accumulator loop of decimal parsing. -/
def parseNatAux : List Char → Nat → Option Nat
  | [], acc => some acc
  | c :: cs, acc =>
    match digitVal c with
    | some d => parseNatAux cs (acc * 10 + d)
    | none => none

/-- Models Python `int(s)` on the revision suffix: succeeds exactly on a
nonempty all-digit string (`int` also tolerates sign/whitespace, which never
occur in revision suffixes produced by this code); `none` models the raised
`ValueError`. -/
def parseNat : List Char → Option Nat
  | [] => none
  | c :: cs => parseNatAux (c :: cs) 0

/-- Fuel-driven loop of decimal rendering (structural recursion so that the
kernel can evaluate it). -/
def natDigitsAux : Nat → Nat → List Char
  | 0, _ => []
  | fuel + 1, n =>
    if n < 10 then [Nat.digitChar n]
    else natDigitsAux fuel (n / 10) ++ [Nat.digitChar (n % 10)]

/-- Decimal rendering of a natural number, as Python `str`/f-string
formatting produces it (no sign, no leading zeros, `0 ↦ "0"`). -/
def natDigits (n : Nat) : List Char := natDigitsAux (n + 1) n

/-! ## The `_rev` spec-id suffix machinery

`src/intent_inference/state.py`, `IntentSpec.create_revision` manipulates
`spec_id` with `"_rev" in spec_id`, `str.rsplit("_rev", 1)` and
`int(...) + 1`; `src/intent_inference/chains/feedback_chain.py`,
`_update_spec_revision` uses `str.split("_rev")` instead.  Strings are
embedded as `List Char` for these functions. -/

/-- The four characters of the `"_rev"` marker. -/
def revChars : List Char := ['_', 'r', 'e', 'v']

/-- Whether a character list begins with `"_rev"`. -/
def startsWithRev : List Char → Bool
  | a :: b :: c :: d :: _ => a == '_' && b == 'r' && c == 'e' && d == 'v'
  | _ => false

/-- Models Python `"_rev" in s` (substring containment). -/
def containsRevL : List Char → Bool
  | [] => false
  | c :: rest => startsWithRev (c :: rest) || containsRevL rest

/-- Models Python `s.rsplit("_rev", 1)`: split at the LAST occurrence of
`"_rev"`; `none` when `"_rev"` does not occur. -/
def rsplitRevL : List Char → Option (List Char × List Char)
  | [] => none
  | c :: rest =>
    match rsplitRevL rest with
    | some (pre, post) => some (c :: pre, post)
    | none => if startsWithRev (c :: rest) then some ([], (c :: rest).drop 4) else none

/-- Split at the FIRST occurrence of `"_rev"` (the first two pieces of
Python `s.split("_rev")`); `none` when `"_rev"` does not occur. -/
def splitFirstRevL : List Char → Option (List Char × List Char)
  | [] => none
  | c :: rest =>
    if startsWithRev (c :: rest) then some ([], (c :: rest).drop 4)
    else
      match splitFirstRevL rest with
      | some (pre, post) => some (c :: pre, post)
      | none => none

/-- Embeds the `spec_id` update of `IntentSpec.create_revision`
(`src/intent_inference/state.py` lines 46-52):
`if "_rev" in spec_id: base, n = spec_id.rsplit("_rev", 1); base_rev(n+1)`
`else: spec_id + "_rev1"`.  `none` models the `ValueError` from `int` on a
non-numeric suffix. -/
def createRevisionIdL (id : List Char) : Option (List Char) :=
  if containsRevL id then
    match rsplitRevL id with
    | some (base, post) =>
      match parseNat post with
      | some n => some (base ++ revChars ++ natDigits (n + 1))
      | none => none
    | none => none
  else some (id ++ revChars ++ ['1'])

/-- Embeds the `spec_id` update of `_update_spec_revision`
(`src/intent_inference/chains/feedback_chain.py` lines 134-144), which uses
`split("_rev")` and the two-element unpacking `base, rev = ...` (a second
occurrence of `"_rev"` makes the unpacking raise, modelled by `none`). -/
def updateSpecRevisionIdL (id : List Char) : Option (List Char) :=
  if containsRevL id then
    match splitFirstRevL id with
    | some (base, post) =>
      if containsRevL post then none
      else
        match parseNat post with
        | some n => some (base ++ revChars ++ natDigits (n + 1))
        | none => none
    | none => none
  else some (id ++ revChars ++ ['1'])

/-- `createRevisionIdL` lifted to `String`. -/
def createRevisionId (s : String) : Option String :=
  (createRevisionIdL s.data).map (fun l => String.mk l)

/-! ## Specification entity of `src/intent_inference/state.py` -/

/-- `DataField` of `src/intent_inference/state.py`. -/
structure DataField where
  field_name : String
  description : String
deriving DecidableEq

/-- `IntentSpec` of `src/intent_inference/state.py`.  `constraints` values
are `Any` in the source but opaque to every embedded code path, so they are
modelled as strings; dicts are association lists. -/
structure IntentSpec where
  spec_id : String
  original_user_query : String
  target_urls_or_sites : List String
  data_to_extract : List DataField
  constraints : List (String × String)
  url_health_status : List (String × String)
  validation_status : String
  critique_history : Option (List String)
deriving DecidableEq

/-- `IntentSpec.create_revision` (`src/intent_inference/state.py` lines
42-59) invoked with no keyword updates: deep-copies the spec and rewrites
only `spec_id`. -/
def IntentSpec.create_revision (spec : IntentSpec) : Option IntentSpec :=
  (createRevisionId spec.spec_id).map (fun newId => { spec with spec_id := newId })

/-! ## Conversation context (`src/intent_inference/models/context.py` and
`src/intent_inference/state.py`) -/

/-- The fields of `ContextStore` (`src/intent_inference/models/context.py`)
touched by critique accumulation. -/
structure CtxStore where
  critique_hints : List String
  processing_attempt : Nat
deriving DecidableEq

/-- `ContextStore.add_critique` (`src/intent_inference/models/context.py`
lines 54-63): `if critique not in self.critique_hints: append`; the attempt
counter is always incremented. -/
def CtxStore.add_critique (ctx : CtxStore) (critique : String) : CtxStore :=
  { critique_hints :=
      if ctx.critique_hints.contains critique then ctx.critique_hints
      else ctx.critique_hints ++ [critique],
    processing_attempt := ctx.processing_attempt + 1 }

/-- `ContextStore.add_critique_hints` (`src/intent_inference/state.py` lines
100-106): plain `list.extend`, no deduplication (the `if not
updated.critique_hints` guard only replaces a falsy value by `[]`, a no-op
for lists). -/
def add_critique_hints (critique_hints new_hints : List String) : List String :=
  critique_hints ++ new_hints

/-- ASCII lowercasing of a character list (Python `str.lower` on ASCII),
used to state case-insensitive equality of critique entries. -/
def lowerL (cs : List Char) : List Char := cs.map Char.toLower

/-! ## URL Health Prober (`src/intent_inference/graph/tools/url_health.py`) -/

/-- A character allowed in a URL scheme (`urllib.parse.scheme_chars`:
ASCII letters, digits, `+`, `-`, `.`). -/
def schemeChar (c : Char) : Bool :=
  c.isAlpha || c.isDigit || c == '+' || c == '-' || c == '.'

/-- Index of the first `':'` in a character list, if any. -/
def findColon : List Char → Option Nat
  | [] => none
  | c :: rest => if c == ':' then some 0 else (findColon rest).map (· + 1)

/-- Models `urllib.parse.urlparse(url).scheme` being nonempty: there is a
`':'` at a positive index and everything before it is made of scheme
characters. -/
def hasScheme (cs : List Char) : Bool :=
  match findColon cs with
  | some i => decide (0 < i) && (cs.take i).all schemeChar
  | none => false

/-- The scheme-defaulting step of the `check_urls_health_sync` loop
(`src/intent_inference/graph/tools/url_health.py` lines 26-29): a URL whose
`urlparse` scheme is empty is prefixed with `https://`. -/
def normalizeUrl (url0 : String) : String :=
  if hasScheme url0.data then url0 else "https://" ++ url0

/-- The rest of the `check_urls_health_sync` loop body
(`src/intent_inference/graph/tools/url_health.py` lines 31-44): issue the
`HEAD` request and classify the response.  The HTTP layer is an oracle
`response : String → Option Nat`: `some code` is a completed response with
that status code, `none` a raised exception (network error / timeout). -/
def checkOneUrl (response : String → Option Nat) (url0 : String) : String × String :=
  match response (normalizeUrl url0) with
  | some code =>
    (normalizeUrl url0, if 200 ≤ code ∧ code < 400 then "healthy" else "unhealthy")
  | none => (normalizeUrl url0, "unhealthy")

/-- `check_urls_health_sync` (`src/intent_inference/graph/tools/url_health.py`
lines 12-46).  The Python result dict, keyed by the (possibly
`https://`-prefixed) checked URL, is an association list here. -/
def check_urls_health_sync (urls : List String) (response : String → Option Nat) :
    List (String × String) :=
  urls.map (checkOneUrl response)

/-! ## Validation node (`src/intent_inference/graph/nodes/validation_nodes.py`) -/

/-- `ValidationStatus` as enumerated by the spec and by
`src/intent_inference-old/state.py` (the current
`graph/nodes/validation_nodes.py` only ever produces `valid`/`invalid`). -/
inductive ValidationStatus
  | valid
  | invalid
  | needs_clarification
  | url_issue
  | missing_data
deriving DecidableEq

/-- `ValidationResult` with the `status` field used by
`graph/nodes/validation_nodes.py`. -/
structure ValidationResultV where
  is_valid : Bool
  status : ValidationStatus
  issues : List String
deriving DecidableEq

/-- `validate_intent` (`src/intent_inference/graph/nodes/validation_nodes.py`
lines 34-179), reduced to its validation verdict: `hasSpec` is
`state.current_intent_spec is not None`, `urls` the spec's
`target_urls_or_sites`, `response` the HTTP oracle fed to
`check_urls_health_sync`, and `judge` the parsed LLM-as-judge verdict
(`none` models the chain raising).  The second component records whether the
judge chain was invoked at all. -/
def validate_intent (hasSpec : Bool) (urls : List String)
    (response : String → Option Nat) (judge : Option (Bool × List String)) :
    ValidationResultV × Bool :=
  if !hasSpec then
    ({ is_valid := false, status := .invalid,
       issues := ["No intent specification available for validation"] }, false)
  else
    let url_health_results := check_urls_health_sync urls response
    let healthy_urls := (url_health_results.filter (fun p => p.2 == "healthy")).length
    if urls.isEmpty || healthy_urls == 0 then
      ({ is_valid := false, status := .invalid,
         issues := ["None of the provided URLs are accessible"] }, false)
    else
      match judge with
      | some (iv, issues) =>
        ({ is_valid := iv, status := if iv then .valid else .invalid,
           issues := issues }, true)
      | none =>
        ({ is_valid := false, status := .invalid,
           issues := ["Validation error: judge chain raised"] }, true)

/-! ## Decision router (`src/intent_inference/graph/nodes.py`) -/

/-- `LLMValidation` (`src/intent_inference/models/llm_schema.py`). -/
structure LLMValidationV where
  is_valid : Bool
  issues : List String
  needs_clarification : Bool
  clarification_questions : List String
deriving DecidableEq

/-- `make_decision` (`src/intent_inference/graph/nodes.py` lines 444-477):
routes on the validation verdict, the URL health map and the context's
attempt counters. -/
def make_decision (validation_result : Option LLMValidationV)
    (url_health_status : List (String × String))
    (processing_attempt max_attempts : Nat) : String :=
  match validation_result with
  | none => "error"
  | some v =>
    if v.is_valid then
      if url_health_status.any (fun p => !(p.2 == "healthy")) then "add_critique"
      else "human_review"
    else if max_attempts ≤ processing_attempt then "human_review"
    else "add_critique"

/-! ## Feedback post-processing, graph path (`src/intent_inference/graph/nodes.py`) -/

/-- `FieldToExtract` (`src/models/intent/intent_spec.py`). -/
structure FieldToExtract where
  name : String
  description : Option String
deriving DecidableEq

/-- `IntentSpec` of `src/models/intent/intent_spec.py` (the unified model
used by `graph/nodes.py`); `Any`-valued dicts are association lists of
strings. -/
structure UnifiedIntentSpec where
  spec_id : String
  original_query : String
  target_urls : List String
  fields_to_extract : List FieldToExtract
  technical_requirements : List String
  constraints : List (String × String)
  url_health_status : List (String × String)
  validation_status : String
  critique_history : List String
  clarification_questions : List String
deriving DecidableEq

/-- `LLMFeedback` (`src/intent_inference/models/llm_schema.py`); a field
dict `{name, description}` is a `(name, description?)` pair, the
`name`/`field_name` key fallback of the consumer already applied. -/
structure LLMFeedback where
  target_urls_to_add : List String
  target_urls_to_remove : List String
  fields_to_add : List (String × Option String)
  fields_to_remove : List String
  constraints_to_update : List (String × String)
  requirements_to_add : List String
  reasoning : String
deriving DecidableEq

/-- Python `d[k] = v` on a string-keyed dict embedded as an association
list: overwrite the existing binding or append a new one. -/
def dictSet (m : List (String × String)) (k v : String) : List (String × String) :=
  if m.any (fun p => p.1 == k) then m.map (fun p => if p.1 == k then (k, v) else p)
  else m ++ [(k, v)]

/-- `post_process_feedback` (`src/intent_inference/graph/nodes.py` lines
231-320).  `last_spec` is `context.last_spec`, `feedback_output` the parsed
collaborator output (`none` when `process_feedback` caught a collaborator
failure, lines 176-182).  Result `none` models the `last_spec is None`
early return (the state keeps no `intent_spec`). -/
def post_process_feedback (last_spec : Option UnifiedIntentSpec)
    (feedback_output : Option LLMFeedback) : Option UnifiedIntentSpec :=
  match last_spec with
  | none => none
  | some ls =>
    match feedback_output with
    | none => some ls
    | some fb =>
      let id1 := if ls.spec_id.endsWith "_rev1" then ls.spec_id else ls.spec_id ++ "_rev1"
      let urls1 := fb.target_urls_to_add.foldl
        (fun acc url => if acc.contains url then acc else acc ++ [url]) ls.target_urls
      let urls2 := urls1.filter (fun url => !(fb.target_urls_to_remove.contains url))
      let fields1 := ls.fields_to_extract ++
        fb.fields_to_add.map (fun p => { name := p.1, description := p.2 })
      let fields2 := fields1.filter (fun f => !(fb.fields_to_remove.contains f.name))
      let constraints1 := fb.constraints_to_update.foldl
        (fun acc kv => dictSet acc kv.1 kv.2) ls.constraints
      let reqs1 := fb.requirements_to_add.foldl
        (fun acc r => if acc.contains r then acc else acc ++ [r]) ls.technical_requirements
      let critique1 := if fb.reasoning ≠ "" then
          ls.critique_history ++ ["Feedback applied: " ++ fb.reasoning]
        else ls.critique_history
      some { spec_id := id1
             original_query := ls.original_query
             target_urls := urls2
             fields_to_extract := fields2
             technical_requirements := reqs1
             constraints := constraints1
             url_health_status := ls.url_health_status
             validation_status := "pending"
             critique_history := critique1
             clarification_questions := [] }

/-! ## Feedback application, chains path
(`src/intent_inference/chains/feedback_chain.py`) -/

/-- `ExtractedField` (`src/intent_inference/models/intent_spec.py`). -/
structure ExtractedField where
  field_name : String
  description : String
deriving DecidableEq

/-- `IntentSpec` of `src/intent_inference/models/intent_spec.py` (the model
used by the chains and by `main.py`). -/
structure ModelsIntentSpec where
  spec_id : String
  original_user_query : String
  target_urls_or_sites : List String
  data_to_extract : List ExtractedField
  constraints : List (String × String)
  url_health_status : List (String × String)
  validation_status : String
  critique_history : List String
  clarification_questions_for_user : List String
  human_approval_notes : Option String
deriving DecidableEq

/-- The closed set of feedback diff operations consumed by
`apply_feedback_to_spec` (a change dict's `"type"` plus its payload keys,
with `change.get(key, "")` defaults already applied; `unknown` covers every
unrecognized `"type"`, which the source logs and skips). -/
inductive ChangeOp
  | add_url (url : String)
  | remove_url (url : String)
  | replace_urls (urls : List String)
  | add_field (field_name description : String)
  | remove_field (field_name : String)
  | update_field (field_name new_description new_name : String)
  | add_constraint (key value : String)
  | remove_constraint (key : String)
  | unknown
deriving DecidableEq

/-- `_apply_url_changes` (`src/intent_inference/chains/feedback_chain.py`
lines 147-178); non-URL ops leave the spec unchanged. -/
def apply_url_changes (spec : ModelsIntentSpec) (change : ChangeOp) : ModelsIntentSpec :=
  match change with
  | .add_url url =>
    if url ≠ "" ∧ ¬ spec.target_urls_or_sites.contains url then
      { spec with target_urls_or_sites := spec.target_urls_or_sites ++ [url] }
    else spec
  | .remove_url url =>
    if url ≠ "" ∧ spec.target_urls_or_sites.contains url then
      { spec with target_urls_or_sites := spec.target_urls_or_sites.erase url }
    else spec
  | .replace_urls urls =>
    if urls ≠ [] then { spec with target_urls_or_sites := urls } else spec
  | _ => spec

/-- The `for i, field in enumerate(...)` / `break` loop of `update_field`:
rewrite the first field whose name matches, leaving the rest untouched; an
empty new description or new name means "not provided". -/
def updateFieldIn : List ExtractedField → String → String → String → List ExtractedField
  | [], _, _, _ => []
  | f :: rest, fname, ndesc, nname =>
    if f.field_name == fname then
      { field_name := if nname ≠ "" then nname else f.field_name,
        description := if ndesc ≠ "" then ndesc else f.description } :: rest
    else f :: updateFieldIn rest fname ndesc nname

/-- `_apply_field_changes` (`src/intent_inference/chains/feedback_chain.py`
lines 181-240). -/
def apply_field_changes (spec : ModelsIntentSpec) (change : ChangeOp) : ModelsIntentSpec :=
  match change with
  | .add_field fname descr =>
    if fname ≠ "" ∧ descr ≠ "" ∧
        ¬ (spec.data_to_extract.map (fun f => f.field_name)).contains fname then
      { spec with data_to_extract := spec.data_to_extract ++ [⟨fname, descr⟩] }
    else spec
  | .remove_field fname =>
    if fname ≠ "" then
      { spec with data_to_extract :=
          spec.data_to_extract.filter (fun f => !(f.field_name == fname)) }
    else spec
  | .update_field fname ndesc nname =>
    if fname ≠ "" then
      { spec with data_to_extract := updateFieldIn spec.data_to_extract fname ndesc nname }
    else spec
  | _ => spec

/-- `_apply_constraint_changes` (`src/intent_inference/chains/feedback_chain.py`
lines 243-271). -/
def apply_constraint_changes (spec : ModelsIntentSpec) (change : ChangeOp) : ModelsIntentSpec :=
  match change with
  | .add_constraint key value =>
    if key ≠ "" then { spec with constraints := dictSet spec.constraints key value }
    else spec
  | .remove_constraint key =>
    if key ≠ "" ∧ spec.constraints.any (fun p => p.1 == key) then
      { spec with constraints := spec.constraints.filter (fun p => !(p.1 == key)) }
    else spec
  | _ => spec

/-- `_add_reasoning_to_history` (`src/intent_inference/chains/feedback_chain.py`
lines 274-291). -/
def add_reasoning_to_history (spec : ModelsIntentSpec) (reasoning : String) : ModelsIntentSpec :=
  if reasoning ≠ "" then
    { spec with critique_history := spec.critique_history ++ ["Feedback applied: " ++ reasoning] }
  else spec

/-- `_update_spec_revision` (`src/intent_inference/chains/feedback_chain.py`
lines 125-144) on the whole spec. -/
def update_spec_revision (spec : ModelsIntentSpec) : Option ModelsIntentSpec :=
  (updateSpecRevisionIdL spec.spec_id.data).map
    (fun newId => { spec with spec_id := String.mk newId })

/-- Dispatch of one change dict inside `apply_feedback_to_spec` (lines
314-325): url ops, field ops, constraint ops, everything else skipped. -/
def applyOneChange (spec : ModelsIntentSpec) (change : ChangeOp) : ModelsIntentSpec :=
  match change with
  | .add_url _ | .remove_url _ | .replace_urls _ => apply_url_changes spec change
  | .add_field _ _ | .remove_field _ | .update_field _ _ _ => apply_field_changes spec change
  | .add_constraint _ _ | .remove_constraint _ => apply_constraint_changes spec change
  | .unknown => spec

/-- `apply_feedback_to_spec` (`src/intent_inference/chains/feedback_chain.py`
lines 294-332): bump the revision id, fold the parsed `changes_to_make`,
then record the reasoning. -/
def apply_feedback_to_spec (changes : List ChangeOp) (reasoning : String)
    (existing_spec : ModelsIntentSpec) : Option ModelsIntentSpec :=
  match update_spec_revision existing_spec with
  | none => none
  | some spec1 => some (add_reasoning_to_history (changes.foldl applyOneChange spec1) reasoning)

/-! ## Collaborator retry (`src/intent_inference/utils/chain_helpers.py`) -/

/-- The `wait_exponential(multiplier=1, min=4, max=10)` delay (seconds)
scheduled after the `k`-th failed attempt. -/
def tenacityDelay (k : Nat) : Nat := min 10 (max 4 (2 ^ k))

/-- Outcome of running an LLM call through a retry wrapper: the returned
text (`none` when the final exception propagated to the caller), how many
attempts were made, and the backoff delays slept between them. -/
structure RetryTrace where
  result : Option String
  attemptsMade : Nat
  delays : List Nat
deriving DecidableEq

/-- The FIRST `call_llm_with_retry` of
`src/intent_inference/utils/chain_helpers.py` (lines 108-149), decorated
with `@retry(stop=stop_after_attempt(3), wait=wait_exponential(multiplier=1,
min=4, max=10), ...)`.  `attempts k` is the outcome of the `k`-th invocation
of the wrapped chain (`none` = transient exception). -/
def runWithRetry (attempts : Nat → Option String) : RetryTrace :=
  match attempts 1 with
  | some r => ⟨some r, 1, []⟩
  | none =>
    match attempts 2 with
    | some r => ⟨some r, 2, [tenacityDelay 1]⟩
    | none =>
      match attempts 3 with
      | some r => ⟨some r, 3, [tenacityDelay 1, tenacityDelay 2]⟩
      | none => ⟨none, 3, [tenacityDelay 1, tenacityDelay 2]⟩

/-- The SECOND `call_llm_with_retry` of
`src/intent_inference/utils/chain_helpers.py` (lines 151-179): one bare
`chain.invoke` inside a try/except that logs and re-raises. -/
def call_llm_with_retry_sync (attempts : Nat → Option String) : RetryTrace :=
  match attempts 1 with
  | some r => ⟨some r, 1, []⟩
  | none => ⟨none, 1, []⟩

/-- Python module semantics: the second module-level `def` rebinds the name,
so every importer of `call_llm_with_retry` gets the retry-less sync
version. -/
def call_llm_with_retry_effective : (Nat → Option String) → RetryTrace :=
  call_llm_with_retry_sync

/-! ## Empty-input handling (`src/intent_inference/main.py`) -/

/-- Result of the extraction phase of `IntentInferenceAgent.infer_intent`
for a fresh conversation. -/
structure ExtractPhaseResult where
  collaboratorCalled : Bool
  spec : ModelsIntentSpec
deriving DecidableEq

/-- The minimal error Specification built by `infer_intent`'s exception
handler when no prior spec exists (`src/intent_inference/main.py` lines
74-82); `spec_id` stands for the uuid-based default and `msg` for the
formatted exception text. -/
def minimalErrorSpec (user_query msg : String) : ModelsIntentSpec :=
  { spec_id := "intent_00000000"
    original_user_query := user_query
    target_urls_or_sites := []
    data_to_extract := []
    constraints := []
    url_health_status := []
    validation_status := "error"
    critique_history := [msg]
    clarification_questions_for_user := []
    human_approval_notes := none }

/-- `IntentInferenceAgent._process_new_intent` (`src/intent_inference/main.py`
lines 102-131) together with `infer_intent`'s exception fallback (lines
65-82), for a fresh agent (`last_spec is None`).  Python truthiness: `if not
user_query` fires exactly on the empty string, raising the `ValueError`
caught by `infer_intent`; otherwise the extraction chain (the inference
collaborator) is invoked, `collaborator = none` modelling its failure. -/
def agent_process_new_intent (user_query : String)
    (collaborator : Option ModelsIntentSpec) : ExtractPhaseResult :=
  if user_query = "" then
    { collaboratorCalled := false,
      spec := minimalErrorSpec user_query
        "Failed to process intent: No user query available in context" }
  else
    match collaborator with
    | some spec => { collaboratorCalled := true, spec := spec }
    | none => { collaboratorCalled := true,
                spec := minimalErrorSpec user_query
                  "Failed to process intent: collaborator failure" }

/-! ## Concrete sample data used by witnesses and counterexamples -/

/-- A typical freshly-extracted specification (`state.py` model). -/
def sampleSpec : IntentSpec :=
  { spec_id := "intent_abc"
    original_user_query := "Get price from https://example.com"
    target_urls_or_sites := ["https://example.com"]
    data_to_extract := [{ field_name := "price", description := "product price" }]
    constraints := []
    url_health_status := []
    validation_status := "pending"
    critique_history := none }

/-- The expected first revision of `sampleSpec`. -/
def sampleSpecRev1 : IntentSpec := { sampleSpec with spec_id := "intent_abc_rev1" }

/-- A judged specification carrying pending clarification questions
(`intent_inference/models/intent_spec.py` model, as consumed by
`apply_feedback_to_spec`). -/
def judgedSpec : ModelsIntentSpec :=
  { spec_id := "intent_xyz"
    original_user_query := "Get price from https://example.com"
    target_urls_or_sites := ["https://example.com"]
    data_to_extract := [{ field_name := "price", description := "product price" }]
    constraints := []
    url_health_status := []
    validation_status := "validated_by_llm_judge"
    critique_history := []
    clarification_questions_for_user := ["Which site do you mean?"]
    human_approval_notes := none }

/-- What `apply_feedback_to_spec` with an empty change list produces from
`judgedSpec`: only the revision suffix changes. -/
def judgedSpecRev1 : ModelsIntentSpec := { judgedSpec with spec_id := "intent_xyz_rev1" }

/-- An existing specification on the graph path (`models/intent/intent_spec.py`
model, as consumed by `graph/nodes.py`). -/
def unifiedSpec : UnifiedIntentSpec :=
  { spec_id := "intent_uvw"
    original_query := "Get price from https://example.com"
    target_urls := ["https://example.com"]
    fields_to_extract := [{ name := "price", description := some "product price" }]
    technical_requirements := ["html_parsing"]
    constraints := []
    url_health_status := []
    validation_status := "pending"
    critique_history := []
    clarification_questions := [] }

/-! ## Helper lemmas on the `_rev` suffix machinery -/

theorem startsWithRev_shape (cs : List Char) (h : startsWithRev cs = true) :
    cs = revChars ++ cs.drop 4 := by
  match cs with
  | [] => simp [startsWithRev] at h
  | [a] => simp [startsWithRev] at h
  | [a, b] => simp [startsWithRev] at h
  | [a, b, c] => simp [startsWithRev] at h
  | a :: b :: c :: d :: t =>
    simp only [startsWithRev, Bool.and_eq_true, beq_iff_eq] at h
    obtain ⟨⟨⟨h1, h2⟩, h3⟩, h4⟩ := h
    subst h1; subst h2; subst h3; subst h4
    rfl

theorem rsplitRevL_none_of_no_underscore (cs : List Char) (h : ∀ c ∈ cs, c ≠ '_') :
    rsplitRevL cs = none := by
  induction cs with
  | nil => rfl
  | cons c rest ih =>
    have hrest : rsplitRevL rest = none :=
      ih (fun x hx => h x (List.mem_cons_of_mem _ hx))
    have hc : c ≠ '_' := h c (List.mem_cons_self _ _)
    have hsw : startsWithRev (c :: rest) = false := by
      match rest with
      | [] => rfl
      | [b] => rfl
      | [b, d] => rfl
      | b :: d :: e :: t =>
        simp only [startsWithRev, Bool.and_eq_false_iff, beq_eq_false_iff_ne, ne_eq]
        exact Or.inl (Or.inl (Or.inl hc))
    simp [rsplitRevL, hrest, hsw]

theorem containsRevL_none_of_no_underscore (cs : List Char) (h : ∀ c ∈ cs, c ≠ '_') :
    containsRevL cs = false := by
  induction cs with
  | nil => rfl
  | cons c rest ih =>
    have hrest := ih (fun x hx => h x (List.mem_cons_of_mem _ hx))
    have hc : c ≠ '_' := h c (List.mem_cons_self _ _)
    have hsw : startsWithRev (c :: rest) = false := by
      match rest with
      | [] => rfl
      | [b] => rfl
      | [b, d] => rfl
      | b :: d :: e :: t =>
        simp only [startsWithRev, Bool.and_eq_false_iff, beq_eq_false_iff_ne, ne_eq]
        exact Or.inl (Or.inl (Or.inl hc))
    simp [containsRevL, hrest, hsw]

theorem rsplitRevL_append (base ds : List Char) (hds : ∀ c ∈ ds, c ≠ '_') :
    rsplitRevL (base ++ revChars ++ ds) = some (base, ds) := by
  induction base with
  | nil =>
    have h1 : rsplitRevL ('r' :: 'e' :: 'v' :: ds) = none := by
      apply rsplitRevL_none_of_no_underscore
      intro c hc
      simp only [List.mem_cons] at hc
      rcases hc with rfl | rfl | rfl | hc
      · decide
      · decide
      · decide
      · exact hds c hc
    show (match rsplitRevL ('r' :: 'e' :: 'v' :: ds) with
          | some (pre, post) => some ('_' :: pre, post)
          | none => if startsWithRev ('_' :: 'r' :: 'e' :: 'v' :: ds) = true
                    then some ([], List.drop 4 ('_' :: 'r' :: 'e' :: 'v' :: ds)) else none)
        = some ([], ds)
    rw [h1]
    rfl
  | cons c base' ih =>
    show rsplitRevL (c :: (base' ++ revChars ++ ds)) = some (c :: base', ds)
    simp only [rsplitRevL]
    rw [ih]

theorem containsRevL_append (base ds : List Char) :
    containsRevL (base ++ revChars ++ ds) = true := by
  induction base with
  | nil =>
    show containsRevL ('_' :: 'r' :: 'e' :: 'v' :: ds) = true
    simp [containsRevL, startsWithRev]
  | cons c base' ih =>
    show containsRevL (c :: (base' ++ revChars ++ ds)) = true
    simp only [containsRevL]
    rw [ih]
    simp

theorem rsplitRevL_eq (cs pre post : List Char) (h : rsplitRevL cs = some (pre, post)) :
    cs = pre ++ revChars ++ post := by
  induction cs generalizing pre post with
  | nil => simp [rsplitRevL] at h
  | cons c rest ih =>
    unfold rsplitRevL at h
    cases hr : rsplitRevL rest with
    | some pq =>
      rw [hr] at h
      obtain ⟨pre', post'⟩ := pq
      simp only [Option.some.injEq, Prod.mk.injEq] at h
      obtain ⟨h1, h2⟩ := h
      subst h2
      have := ih pre' post' hr
      rw [← h1, this]
      simp
    | none =>
      rw [hr] at h
      by_cases hsw : startsWithRev (c :: rest) = true
      · rw [if_pos hsw] at h
        simp only [Option.some.injEq, Prod.mk.injEq] at h
        obtain ⟨h1, h2⟩ := h
        have hshape := startsWithRev_shape _ hsw
        rw [← h1, ← h2]
        simpa using hshape
      · rw [if_neg hsw] at h
        cases h

theorem splitFirstRevL_append (base ds : List Char) (hbase : containsRevL base = false) :
    splitFirstRevL (base ++ revChars ++ ds) = some (base, ds) := by
  induction base with
  | nil =>
    show splitFirstRevL ('_' :: 'r' :: 'e' :: 'v' :: ds) = some ([], ds)
    simp [splitFirstRevL, startsWithRev]
  | cons c base' ih =>
    have hparts : startsWithRev (c :: base') = false ∧ containsRevL base' = false := by
      simpa [containsRevL, Bool.or_eq_false_iff] using hbase
    have h3 : startsWithRev (c :: (base' ++ revChars ++ ds)) = false := by
      match base', hparts.1 with
      | [], _ =>
        show startsWithRev (c :: '_' :: 'r' :: 'e' :: 'v' :: ds) = false
        simp only [startsWithRev, Bool.and_eq_false_iff]
        exact Or.inr (by decide)
      | [b1], _ =>
        show startsWithRev (c :: b1 :: '_' :: 'r' :: 'e' :: 'v' :: ds) = false
        simp only [startsWithRev, Bool.and_eq_false_iff]
        exact Or.inr (by decide)
      | [b1, b2], _ =>
        show startsWithRev (c :: b1 :: b2 :: '_' :: 'r' :: 'e' :: 'v' :: ds) = false
        simp only [startsWithRev, Bool.and_eq_false_iff]
        exact Or.inr (by decide)
      | b1 :: b2 :: b3 :: rest, h1 =>
        show startsWithRev (c :: b1 :: b2 :: b3 :: (rest ++ revChars ++ ds)) = false
        simpa only [startsWithRev] using h1
    show splitFirstRevL (c :: (base' ++ revChars ++ ds)) = some (c :: base', ds)
    simp only [splitFirstRevL]
    rw [h3]
    simp only [Bool.false_eq_true, if_false]
    rw [ih hparts.2]

/-! ## Helper lemmas on decimal parsing and rendering -/

theorem parseNatAux_append (xs ys : List Char) (acc : Nat) :
    parseNatAux (xs ++ ys) acc =
      match parseNatAux xs acc with
      | some m => parseNatAux ys m
      | none => none := by
  induction xs generalizing acc with
  | nil => rfl
  | cons c xs ih =>
    show parseNatAux (c :: (xs ++ ys)) acc = _
    cases hdv : digitVal c with
    | some d =>
      simp only [parseNatAux, hdv]
      exact ih _
    | none => simp only [parseNatAux, hdv]

theorem digitVal_digitChar : ∀ d, d < 10 → digitVal (Nat.digitChar d) = some d := by decide

theorem digitVal_ne_underscore (c : Char) (d : Nat) (h : digitVal c = some d) : c ≠ '_' := by
  intro heq
  subst heq
  rw [show digitVal '_' = none from by decide] at h
  cases h

theorem parseNatAux_no_underscore (cs : List Char) (acc n : Nat)
    (h : parseNatAux cs acc = some n) : ∀ c ∈ cs, c ≠ '_' := by
  induction cs generalizing acc with
  | nil => intro c hc; cases hc
  | cons c cs ih =>
    intro x hx
    simp only [parseNatAux] at h
    cases hdv : digitVal c with
    | none => rw [hdv] at h; cases h
    | some d =>
      rw [hdv] at h
      simp only [List.mem_cons] at hx
      rcases hx with rfl | hx'
      · exact digitVal_ne_underscore x d hdv
      · exact ih _ h x hx'

theorem parseNat_no_underscore (cs : List Char) (n : Nat) (h : parseNat cs = some n) :
    ∀ c ∈ cs, c ≠ '_' := by
  match cs with
  | [] => intro c hc; cases hc
  | c :: cs' => exact parseNatAux_no_underscore _ _ _ h

theorem natDigitsAux_ne_nil (fuel n : Nat) (h : n < fuel) : natDigitsAux fuel n ≠ [] := by
  match fuel with
  | f + 1 =>
    show (if n < 10 then [Nat.digitChar n]
          else natDigitsAux f (n / 10) ++ [Nat.digitChar (n % 10)]) ≠ []
    split
    · simp
    · simp

theorem natDigits_ne_nil (n : Nat) : natDigits n ≠ [] :=
  natDigitsAux_ne_nil (n + 1) n (by omega)

theorem parseNat_eq_parseNatAux (cs : List Char) (h : cs ≠ []) :
    parseNat cs = parseNatAux cs 0 := by
  match cs with
  | [] => exact absurd rfl h
  | c :: cs' => rfl

theorem parseNat_natDigitsAux (fuel : Nat) :
    ∀ n, n < fuel → parseNat (natDigitsAux fuel n) = some n := by
  induction fuel with
  | zero => intro n h; omega
  | succ f ih =>
    intro n h
    show parseNat (if n < 10 then [Nat.digitChar n]
          else natDigitsAux f (n / 10) ++ [Nat.digitChar (n % 10)]) = some n
    split
    · rename_i h10
      show parseNatAux [Nat.digitChar n] 0 = some n
      simp only [parseNatAux, digitVal_digitChar n h10]
      simp
    · rename_i h10
      have hlt : n / 10 < f := by
        have hd : n / 10 < n := Nat.div_lt_self (by omega) (by omega)
        omega
      have ihh := ih (n / 10) hlt
      have hne := natDigitsAux_ne_nil f (n / 10) hlt
      rw [parseNat_eq_parseNatAux _ (by
        intro hnil
        rcases List.append_eq_nil.mp hnil with ⟨h1, _⟩
        exact hne h1)]
      rw [parseNatAux_append]
      rw [parseNat_eq_parseNatAux _ hne] at ihh
      rw [ihh]
      show parseNatAux [Nat.digitChar (n % 10)] (n / 10) = some n
      simp only [parseNatAux, digitVal_digitChar (n % 10) (Nat.mod_lt _ (by omega))]
      simp only [parseNatAux, Option.some.injEq]
      omega

theorem parseNat_natDigits (n : Nat) : parseNat (natDigits n) = some n :=
  parseNat_natDigitsAux (n + 1) n (by omega)

theorem createRevisionIdL_fresh (base : List Char) (hbase : containsRevL base = false) :
    createRevisionIdL base = some (base ++ revChars ++ ['1']) := by
  simp [createRevisionIdL, hbase]

theorem createRevisionIdL_bump (base ds : List Char) (n : Nat)
    (hds : parseNat ds = some n) :
    createRevisionIdL (base ++ revChars ++ ds) = some (base ++ revChars ++ natDigits (n + 1)) := by
  have hnou := parseNat_no_underscore ds n hds
  unfold createRevisionIdL
  rw [if_pos (containsRevL_append base ds), rsplitRevL_append base ds hnou]
  show (match parseNat ds with
        | some m => some (base ++ revChars ++ natDigits (m + 1))
        | none => none) = some (base ++ revChars ++ natDigits (n + 1))
  rw [hds]

theorem updateSpecRevisionIdL_fresh (base : List Char) (hbase : containsRevL base = false) :
    updateSpecRevisionIdL base = some (base ++ revChars ++ ['1']) := by
  simp [updateSpecRevisionIdL, hbase]

theorem updateSpecRevisionIdL_bump (base ds : List Char) (n : Nat)
    (hbase : containsRevL base = false) (hds : parseNat ds = some n) :
    updateSpecRevisionIdL (base ++ revChars ++ ds) =
      some (base ++ revChars ++ natDigits (n + 1)) := by
  have hnou := parseNat_no_underscore ds n hds
  unfold updateSpecRevisionIdL
  rw [if_pos (containsRevL_append base ds), splitFirstRevL_append base ds hbase]
  show (if containsRevL ds = true then none
        else match parseNat ds with
          | some m => some (base ++ revChars ++ natDigits (m + 1))
          | none => none) = some (base ++ revChars ++ natDigits (n + 1))
  rw [containsRevL_none_of_no_underscore ds hnou]
  simp only [Bool.false_eq_true, if_false]
  rw [hds]

theorem createRevisionIdL_ne (id out : List Char) (h : createRevisionIdL id = some out) :
    out ≠ id := by
  unfold createRevisionIdL at h
  by_cases hc : containsRevL id
  · rw [if_pos hc] at h
    cases hr : rsplitRevL id with
    | none => rw [hr] at h; cases h
    | some pq =>
      obtain ⟨base, post⟩ := pq
      rw [hr] at h
      have h' : (match parseNat post with
                 | some m => some (base ++ revChars ++ natDigits (m + 1))
                 | none => none) = some out := h
      cases hp : parseNat post with
      | none =>
        rw [hp] at h'
        exact absurd h' (by simp)
      | some n =>
        rw [hp] at h'
        have h : base ++ revChars ++ natDigits (n + 1) = out := by
          have h3 : some (base ++ revChars ++ natDigits (n + 1)) = some out := h'
          exact Option.some.inj h3
        intro heq
        rw [heq] at h
        rw [rsplitRevL_eq id base post hr] at h
        have hcancel : natDigits (n + 1) = post := by
          have h2 : (base ++ revChars) ++ natDigits (n + 1) = (base ++ revChars) ++ post := by
            simpa [List.append_assoc] using h
          exact List.append_cancel_left h2
        have := parseNat_natDigits (n + 1)
        rw [hcancel, hp] at this
        simp at this
  · rw [if_neg hc] at h
    simp only [Option.some.injEq] at h
    intro heq
    rw [heq] at h
    have := congrArg List.length h
    simp [revChars] at this

/-! ## Helper lemmas on the URL health prober -/

theorem checkOneUrl_fst (r : String → Option Nat) (u : String) :
    (checkOneUrl r u).1 = normalizeUrl u := by
  unfold checkOneUrl
  cases r (normalizeUrl u) with
  | none => rfl
  | some code => rfl

theorem checkOneUrl_cases (r : String → Option Nat) (u : String) :
    ((checkOneUrl r u).2 = "healthy" ∨ (checkOneUrl r u).2 = "unhealthy") ∧
    ((checkOneUrl r u).2 = "healthy" → ∃ code, r (checkOneUrl r u).1 = some code ∧ code < 400) ∧
    ((r (checkOneUrl r u).1 = none ∨ ∃ code, r (checkOneUrl r u).1 = some code ∧ 400 ≤ code) →
      (checkOneUrl r u).2 = "unhealthy") := by
  unfold checkOneUrl
  cases hr : r (normalizeUrl u) with
  | none =>
    refine ⟨Or.inr rfl, ?_, fun _ => rfl⟩
    intro h
    have h2 : ("unhealthy" : String) = "healthy" := h
    exact absurd h2 (by decide)
  | some code =>
    by_cases hc : 200 ≤ code ∧ code < 400
    · refine ⟨?_, ?_, ?_⟩
      · left
        show (if 200 ≤ code ∧ code < 400 then "healthy" else "unhealthy") = "healthy"
        rw [if_pos hc]
      · intro _
        exact ⟨code, hr, hc.2⟩
      · intro h
        exfalso
        rcases h with h | ⟨code', hc', hge⟩
        · rw [show r (normalizeUrl u, if 200 ≤ code ∧ code < 400 then "healthy"
            else "unhealthy").1 = r (normalizeUrl u) from rfl, hr] at h
          cases h
        · rw [show r (normalizeUrl u, if 200 ≤ code ∧ code < 400 then "healthy"
            else "unhealthy").1 = r (normalizeUrl u) from rfl, hr] at hc'
          injection hc' with he
          omega
    · refine ⟨?_, ?_, ?_⟩
      · right
        show (if 200 ≤ code ∧ code < 400 then "healthy" else "unhealthy") = "unhealthy"
        rw [if_neg hc]
      · intro h
        exfalso
        revert h
        show ¬ (if 200 ≤ code ∧ code < 400 then "healthy" else "unhealthy") = "healthy"
        rw [if_neg hc]
        decide
      · intro _
        show (if 200 ≤ code ∧ code < 400 then "healthy" else "unhealthy") = "unhealthy"
        rw [if_neg hc]

/-! ## Claim theorems -/

/-- C9: for every list of URL strings, the URL Health Prober defaults a
missing scheme to `https://`; a checked URL maps to `healthy` only on a
completed HTTP response with status < 400; any raised network error/timeout
or status ≥ 400 maps it to `unhealthy`; every value in the returned map is
either `healthy` or `unhealthy`. -/
theorem claim_c9_url_prober (urls : List String) (response : String → Option Nat) :
    (∀ p ∈ check_urls_health_sync urls response, p.2 = "healthy" ∨ p.2 = "unhealthy") ∧
    (∀ p ∈ check_urls_health_sync urls response, p.2 = "healthy" →
      ∃ code, response p.1 = some code ∧ code < 400) ∧
    (∀ p ∈ check_urls_health_sync urls response,
      (response p.1 = none ∨ ∃ code, response p.1 = some code ∧ 400 ≤ code) →
        p.2 = "unhealthy") ∧
    (∀ url ∈ urls, hasScheme url.data = false →
      ∃ st, ("https://" ++ url, st) ∈ check_urls_health_sync urls response) := by
  refine ⟨?_, ?_, ?_, ?_⟩
  · intro p hp
    obtain ⟨u, hu, rfl⟩ := List.mem_map.mp hp
    exact (checkOneUrl_cases response u).1
  · intro p hp
    obtain ⟨u, hu, rfl⟩ := List.mem_map.mp hp
    exact (checkOneUrl_cases response u).2.1
  · intro p hp
    obtain ⟨u, hu, rfl⟩ := List.mem_map.mp hp
    exact (checkOneUrl_cases response u).2.2
  · intro url hurl hns
    refine ⟨(checkOneUrl response url).2, ?_⟩
    have hfst : (checkOneUrl response url).1 = "https://" ++ url := by
      rw [checkOneUrl_fst]
      unfold normalizeUrl
      rw [hns]
      simp
    have heq : checkOneUrl response url = ("https://" ++ url, (checkOneUrl response url).2) := by
      rw [← hfst]
    rw [← heq]
    exact List.mem_map_of_mem _ hurl

/-- C9 witness: the first part of `claim_c9_url_prober` instantiated at a
single dead URL whose every request raises. -/
theorem claim_c9_url_prober_witness :
    ("https://dead.example", "unhealthy").2 = "healthy" ∨
    ("https://dead.example", "unhealthy").2 = "unhealthy" :=
  (claim_c9_url_prober ["dead.example"] (fun _ => none)).1
    ("https://dead.example", "unhealthy") (by decide)

/-- C1 (amended): when the state has a spec with at least one target URL and
the prober reports every checked URL unhealthy, `validate_intent` returns
immediately with `is_valid = false` and the generic `invalid` status (not
`url_issue`), the single issue
"None of the provided URLs are accessible", and the judge chain is never
invoked. -/
theorem claim_c1_fail_fast (urls : List String) (response : String → Option Nat)
    (judge : Option (Bool × List String)) (_h1 : urls ≠ [])
    (h2 : ∀ p ∈ check_urls_health_sync urls response, p.2 = "unhealthy") :
    validate_intent true urls response judge =
      ({ is_valid := false, status := ValidationStatus.invalid,
         issues := ["None of the provided URLs are accessible"] }, false) := by
  have hfilter : (check_urls_health_sync urls response).filter (fun p => p.2 == "healthy") = [] := by
    rw [List.filter_eq_nil_iff]
    intro p hp
    rw [h2 p hp]
    decide
  unfold validate_intent
  simp [hfilter]

/-- C1 witness: `claim_c1_fail_fast` at the spec's single dead URL, with a
judge present that would answer valid if it were (wrongly) consulted. -/
theorem claim_c1_fail_fast_witness :
    validate_intent true ["http://dead.invalid"] (fun _ => none) (some (true, [])) =
      ({ is_valid := false, status := ValidationStatus.invalid,
         issues := ["None of the provided URLs are accessible"] }, false) :=
  claim_c1_fail_fast ["http://dead.invalid"] (fun _ => none) (some (true, []))
    (by decide) (by decide)

/-- C1 counterexample: at `target_urls = ["http://dead.invalid"]` with the
prober reporting it unhealthy, the returned status is `invalid`, not the
`url_issue` the claim states (the judge is indeed skipped). -/
theorem claim_c1_counterexample :
    (∀ p ∈ check_urls_health_sync ["http://dead.invalid"] (fun _ => none),
      p.2 = "unhealthy") ∧
    (validate_intent true ["http://dead.invalid"] (fun _ => none) (some (true, []))).1.status =
      ValidationStatus.invalid ∧
    (validate_intent true ["http://dead.invalid"] (fun _ => none) (some (true, []))).1.status ≠
      ValidationStatus.url_issue ∧
    (validate_intent true ["http://dead.invalid"] (fun _ => none) (some (true, []))).2 = false := by
  refine ⟨by decide, by decide, by decide, by decide⟩

/-- C2 (amended): `make_decision` routes a valid verdict to human review
only when every probed URL is healthy; a valid verdict with any unhealthy
URL goes to the critique accumulator, an invalid verdict with attempts left
goes to the critique accumulator, and an invalid verdict with the attempt
budget exhausted is forced to human review. -/
theorem claim_c2_decision_router (v : LLMValidationV)
    (url_health : List (String × String)) (attempt maxa : Nat) :
    (v.is_valid = true → (∀ p ∈ url_health, p.2 = "healthy") →
      make_decision (some v) url_health attempt maxa = "human_review") ∧
    (v.is_valid = true → (∃ p ∈ url_health, p.2 ≠ "healthy") →
      make_decision (some v) url_health attempt maxa = "add_critique") ∧
    (v.is_valid = false → attempt < maxa →
      make_decision (some v) url_health attempt maxa = "add_critique") ∧
    (v.is_valid = false → maxa ≤ attempt →
      make_decision (some v) url_health attempt maxa = "human_review") := by
  refine ⟨?_, ?_, ?_, ?_⟩
  · intro hv hall
    have hany : url_health.any (fun p => !(p.2 == "healthy")) = false := by
      rw [List.any_eq_false]
      intro p hp
      rw [hall p hp]
      decide
    simp [make_decision, hv, hany]
  · intro hv hex
    obtain ⟨p, hp, hne⟩ := hex
    have hany : url_health.any (fun p => !(p.2 == "healthy")) = true := by
      rw [List.any_eq_true]
      refine ⟨p, hp, ?_⟩
      simpa using hne
    simp [make_decision, hv, hany]
  · intro hv hlt
    simp [make_decision, hv, Nat.not_le.mpr hlt]
  · intro hv hle
    simp [make_decision, hv, hle]

/-- C2 witness: `claim_c2_decision_router` instantiated at a valid verdict
with a healthy URL map, yielding `human_review`. -/
theorem claim_c2_decision_router_witness :
    make_decision (some ⟨true, [], false, []⟩)
      [("https://example.com", "healthy")] 0 3 = "human_review" :=
  (claim_c2_decision_router ⟨true, [], false, []⟩
    [("https://example.com", "healthy")] 0 3).1 rfl (by decide)

/-- C2 counterexample: a valid verdict (`is_valid = true`) with one
unhealthy URL routes to `add_critique`, not to human review as the claim's
transition table states. -/
theorem claim_c2_counterexample :
    make_decision (some ⟨true, [], false, []⟩)
      [("https://example.com", "error")] 0 3 = "add_critique" ∧
    "add_critique" ≠ "human_review" := by
  refine ⟨by decide, by decide⟩

/-- C3 (amended): for a spec id `base` containing no `"_rev"`, one revision
yields `base_rev1`; for an id `base_rev<ds>` whose suffix denotes `n`, a
revision yields `base_rev<n+1>` — the suffix number is incremented in place
(so two revisions of `X` give `X_rev1` then `X_rev2`, not stacked
`X_rev1_rev2` suffixes), never reused or skipped.  `create_revision`
(state.py) and `_update_spec_revision` (feedback_chain.py) agree. -/
theorem claim_c3_revision_numbering (base ds : List Char) (n : Nat)
    (hbase : containsRevL base = false) (hds : parseNat ds = some n) :
    createRevisionIdL base = some (base ++ revChars ++ ['1']) ∧
    createRevisionIdL (base ++ revChars ++ ds) = some (base ++ revChars ++ natDigits (n + 1)) ∧
    updateSpecRevisionIdL base = some (base ++ revChars ++ ['1']) ∧
    updateSpecRevisionIdL (base ++ revChars ++ ds) =
      some (base ++ revChars ++ natDigits (n + 1)) ∧
    parseNat (natDigits (n + 1)) = some (n + 1) :=
  ⟨createRevisionIdL_fresh base hbase, createRevisionIdL_bump base ds n hds,
   updateSpecRevisionIdL_fresh base hbase, updateSpecRevisionIdL_bump base ds n hbase hds,
   parseNat_natDigits (n + 1)⟩

/-- C3 witness: `claim_c3_revision_numbering` at the id `intent_abc` with a
`_rev1` suffix. -/
theorem claim_c3_revision_numbering_witness :
    createRevisionIdL ("intent_abc".data) = some ("intent_abc".data ++ revChars ++ ['1']) ∧
    createRevisionIdL ("intent_abc".data ++ revChars ++ ['1']) =
      some ("intent_abc".data ++ revChars ++ natDigits 2) :=
  ⟨(claim_c3_revision_numbering "intent_abc".data ['1'] 1 (by decide) (by decide)).1,
   (claim_c3_revision_numbering "intent_abc".data ['1'] 1 (by decide) (by decide)).2.1⟩

/-- C3 counterexample: two successive revisions of the id `intent_abc` yield
`intent_abc_rev2`, not the `intent_abc_rev1_rev2` shape of the claim. -/
theorem claim_c3_counterexample :
    (createRevisionId "intent_abc").bind createRevisionId = some "intent_abc_rev2" ∧
    (createRevisionId "intent_abc").bind createRevisionId ≠ some "intent_abc_rev1_rev2" := by
  refine ⟨by decide, by decide⟩

/-- C10: `create_revision` with no field updates returns a spec that agrees
with the original on every field except `spec_id`, which always changes. -/
theorem claim_c10_create_revision_frame (spec spec' : IntentSpec)
    (h : spec.create_revision = some spec') :
    spec'.original_user_query = spec.original_user_query ∧
    spec'.target_urls_or_sites = spec.target_urls_or_sites ∧
    spec'.data_to_extract = spec.data_to_extract ∧
    spec'.constraints = spec.constraints ∧
    spec'.url_health_status = spec.url_health_status ∧
    spec'.validation_status = spec.validation_status ∧
    spec'.critique_history = spec.critique_history ∧
    spec'.spec_id ≠ spec.spec_id := by
  unfold IntentSpec.create_revision createRevisionId at h
  cases hid : createRevisionIdL spec.spec_id.data with
  | none =>
    rw [hid] at h
    simp at h
  | some newIdL =>
    rw [hid] at h
    have h2 : ({ spec with spec_id := String.mk newIdL } : IntentSpec) = spec' := by
      simpa using h
    subst h2
    refine ⟨rfl, rfl, rfl, rfl, rfl, rfl, rfl, ?_⟩
    intro heq
    have hdata : newIdL = spec.spec_id.data := congrArg String.data heq
    exact createRevisionIdL_ne _ _ hid hdata

/-- C10 witness: `claim_c10_create_revision_frame` at `sampleSpec`, whose
no-update revision is `sampleSpecRev1`. -/
theorem claim_c10_create_revision_frame_witness :
    sampleSpec.create_revision = some sampleSpecRev1 ∧
    sampleSpecRev1.spec_id ≠ sampleSpec.spec_id :=
  ⟨by decide, (claim_c10_create_revision_frame sampleSpec sampleSpecRev1 (by decide)).2.2.2.2.2.2.2⟩

/-- Folding `add_critique` preserves freedom from exact duplicates. -/
theorem foldl_add_critique_nodup (cs : List String) (ctx : CtxStore)
    (h : ctx.critique_hints.Nodup) :
    (cs.foldl CtxStore.add_critique ctx).critique_hints.Nodup := by
  induction cs generalizing ctx with
  | nil => exact h
  | cons c cs ih =>
    apply ih
    unfold CtxStore.add_critique
    by_cases hc : ctx.critique_hints.contains c
    · rw [if_pos hc]
      exact h
    · rw [if_neg hc]
      have hnm : c ∉ ctx.critique_hints := by
        simpa using hc
      refine h.append (List.nodup_singleton c) ?_
      intro x hx hx'
      simp only [List.mem_singleton] at hx'
      subst hx'
      exact hnm hx

/-- C4 (amended): critique hints are deduplicated on insert by EXACT
(case-sensitive) string match: no sequence of `add_critique` operations
starting from an empty context ever produces two exactly-equal entries —
but entries that differ only in letter case are kept as distinct, as the
counterexample shows. -/
theorem claim_c4_exact_dedup (cs : List String) :
    (cs.foldl CtxStore.add_critique
      { critique_hints := [], processing_attempt := 0 }).critique_hints.Nodup :=
  foldl_add_critique_nodup cs { critique_hints := [], processing_attempt := 0 } (by simp)

/-- C4 counterexample: adding `"URL is down"` and then `"url is down"`
leaves TWO entries in `critique_hints`, although the two strings are
case-insensitively equal — the claimed case-insensitive dedup does not
happen (and `add_critique_hints` of state.py does not deduplicate at all). -/
theorem claim_c4_counterexample :
    ((({ critique_hints := [], processing_attempt := 0 } : CtxStore).add_critique
        "URL is down").add_critique "url is down").critique_hints =
      ["URL is down", "url is down"] ∧
    lowerL ("URL is down".data) = lowerL ("url is down".data) ∧
    add_critique_hints (add_critique_hints [] ["URL is down"]) ["url is down"] =
      ["URL is down", "url is down"] := by
  refine ⟨by decide, by decide, by decide⟩

/-- C5 (amended): only the EMPTY user input short-circuits extraction — the
inference collaborator is not called and the workflow falls back to a
minimal Specification with `validation_status = "error"` (the Specification
model has no `needs_human_review` field to set); a whitespace-only input is
truthy in Python and goes to the collaborator, as the counterexample
shows. -/
theorem claim_c5_empty_input (uq : String) (collab : Option ModelsIntentSpec)
    (h : uq = "") :
    (agent_process_new_intent uq collab).collaboratorCalled = false ∧
    (agent_process_new_intent uq collab).spec.validation_status = "error" := by
  subst h
  exact ⟨rfl, rfl⟩

/-- C5 witness: `claim_c5_empty_input` at the empty string with no
collaborator answer available. -/
theorem claim_c5_empty_input_witness :
    (agent_process_new_intent "" none).collaboratorCalled = false ∧
    (agent_process_new_intent "" none).spec.validation_status = "error" :=
  claim_c5_empty_input "" none rfl

/-- C5 counterexample: for the whitespace-only input `" "` the extraction
collaborator IS called (`if not user_query` only fires on falsy strings),
contradicting the claim's "for every empty or whitespace-only user
input". -/
theorem claim_c5_counterexample :
    (agent_process_new_intent " " (some judgedSpec)).collaboratorCalled = true := by
  decide

/-- C6: the retry-decorated `call_llm_with_retry` would retry up to 3
attempts with the clamped exponential backoff (first delay 4s), but the
module-level sync redefinition that shadows it makes exactly one attempt
and propagates the failure: on an LLM whose first call fails transiently
and whose second call would succeed, the effective function errors out
after one attempt while the decorated one returns the answer. -/
theorem claim_c6_retry_shadowed :
    (call_llm_with_retry_effective (fun k => if k = 1 then none else some "ok")).result
        = none ∧
    (call_llm_with_retry_effective (fun k => if k = 1 then none else some "ok")).attemptsMade
        = 1 ∧
    (runWithRetry (fun k => if k = 1 then none else some "ok")).result = some "ok" ∧
    (runWithRetry (fun k => if k = 1 then none else some "ok")).attemptsMade = 2 ∧
    (runWithRetry (fun k => if k = 1 then none else some "ok")).delays = [4] := by
  refine ⟨rfl, rfl, rfl, rfl, rfl⟩

/-- C7 (amended): on the graph path, `post_process_feedback` applied to an
existing spec and a parsed feedback output always yields a spec with
`validation_status` reset to `"pending"` and `clarification_questions`
cleared; the chains path `apply_feedback_to_spec` does neither, as the
counterexample shows. -/
theorem claim_c7_revision_resets (ls : UnifiedIntentSpec) (fb : LLMFeedback) :
    ∃ r, post_process_feedback (some ls) (some fb) = some r ∧
      r.validation_status = "pending" ∧ r.clarification_questions = [] :=
  ⟨_, rfl, rfl, rfl⟩

/-- C7 counterexample: `apply_feedback_to_spec` with an empty diff keeps the
stale `validation_status = "validated_by_llm_judge"` and the stale
clarification question — neither is reset, contradicting the claim for the
revision operation of the chains path. -/
theorem claim_c7_counterexample :
    apply_feedback_to_spec [] "" judgedSpec = some judgedSpecRev1 ∧
    judgedSpecRev1.validation_status = "validated_by_llm_judge" ∧
    judgedSpecRev1.validation_status ≠ "pending" ∧
    judgedSpecRev1.clarification_questions_for_user = ["Which site do you mean?"] := by
  refine ⟨by decide, rfl, by decide, rfl⟩

/-- C8 (amended): when the feedback collaborator fails (`feedback_output`
is `None`), `post_process_feedback` returns the existing Specification
unchanged — the user's prior work survives — but no critique entry noting
the failure is added to it. -/
theorem claim_c8_failure_keeps_spec (ls : UnifiedIntentSpec) :
    post_process_feedback (some ls) none = some ls ∧
    (post_process_feedback (some ls) none).map UnifiedIntentSpec.critique_history =
      some ls.critique_history :=
  ⟨rfl, rfl⟩

/-- C8 counterexample: on collaborator failure the returned spec is the old
one with its critique history still empty — it is NOT tagged with a
critique entry noting the failure, contradicting the claim. -/
theorem claim_c8_counterexample :
    post_process_feedback (some unifiedSpec) none = some unifiedSpec ∧
    unifiedSpec.critique_history = [] := by
  refine ⟨rfl, rfl⟩
